import Mathlib

/-!
Verification of the positional data-record extraction engine of the
fem-benchmarks repository (scripts `generate_perfect_yaml_p51.py`,
`generate_perfect_yamls.py`, `generate_chap05_yamls.py`).

The Python functions are shallowly embedded as total Lean functions:
  * Python exceptions (`IndexError` from out-of-range list indexing,
    `ValueError` from failed `int()`/`float()` coercion) are modelled with
    `Except PyErr`;
  * Python `int` is modelled as `Int`, Python `float` values are modelled
    exactly as `Rat` (no claim below depends on rounding of binary
    floating point, only on whether a token coerces and on the value of
    decimal literals);
  * file input is modelled by passing the file's line list explicitly;
    a file that cannot be opened is `Except.error`/`Option.none` at the
    call boundary of the function that opens it.
-/

/-- The two Python exception kinds raised by the parsing code. -/
inductive PyErr where
  | indexError
  | valueError
  deriving DecidableEq, Repr

/-- The apostrophe character (written via its code point). -/
def sqChar : Char := Char.ofNat 39

/-- The double-quote character (written via its code point). -/
def dqChar : Char := Char.ofNat 34

/-- `True` for the characters stripped by Python `str.strip("'\"")`. -/
def isQuoteChar (c : Char) : Bool := c = sqChar || c = dqChar

/-- Python `str.strip()`: remove leading and trailing whitespace. -/
def stripWs (s : String) : String :=
  String.mk (((s.toList.dropWhile Char.isWhitespace).reverse.dropWhile
    Char.isWhitespace).reverse)

/-- Python `str.strip("'\"")`: remove leading and trailing quote characters. -/
def stripQuotes (s : String) : String :=
  String.mk (((s.toList.dropWhile isQuoteChar).reverse.dropWhile
    isQuoteChar).reverse)

/-- Python `str.replace("'", "")`: delete every apostrophe. -/
def removeSQ (s : String) : String :=
  String.mk (s.toList.filter (fun c => c ≠ sqChar))

/-- Helper for `pysplit`: split on whitespace runs, accumulating the
current token reversed. -/
def splitWsAux : List Char → List Char → List String
  | [], acc => if acc.isEmpty then [] else [String.mk acc.reverse]
  | c :: rest, acc =>
    if c.isWhitespace then
      if acc.isEmpty then splitWsAux rest []
      else String.mk acc.reverse :: splitWsAux rest []
    else splitWsAux rest (c :: acc)

/-- Python `str.split()` with no argument: split on runs of whitespace,
dropping empty pieces. -/
def pysplit (s : String) : List String := splitWsAux s.toList []

/-- Decimal value of a digit list (most significant first). -/
def digitsToNat (cs : List Char) : Nat :=
  cs.foldl (fun a c => a * 10 + (c.toNat - 48)) 0

/-- Split an optional leading sign off a character list, returning the
sign as `1` or `-1` and the remaining characters. -/
def splitSign : List Char → Int × List Char
  | [] => (1, [])
  | c :: rest =>
    if c = '-' then (-1, rest)
    else if c = '+' then (1, rest) else (1, c :: rest)

/-- Python `int(token)` on a whitespace-free token: optional sign followed
by one or more decimal digits; `none` models `ValueError`. -/
def pyInt? (s : String) : Option Int :=
  let (sgn, body) := splitSign s.toList
  if !body.isEmpty && body.all Char.isDigit then
    some (sgn * Int.ofNat (digitsToNat body))
  else none

/-- Python `float(token)` on a whitespace-free token: optional sign,
integer part, optional fractional part (at least one digit overall),
optional `e`/`E` exponent with its own optional sign.  The value is kept
exactly as a rational; `none` models `ValueError`. -/
def pyRat? (s : String) : Option Rat :=
  let (sgn, rest) := splitSign s.toList
  let (ip, r1) := rest.span Char.isDigit
  let (fp, r2) : List Char × List Char :=
    match r1 with
    | c :: t => if c = '.' then t.span Char.isDigit else ([], r1)
    | [] => ([], [])
  if ip.isEmpty && fp.isEmpty then none
  else
    let base : Int := sgn * Int.ofNat (digitsToNat ip * 10 ^ fp.length + digitsToNat fp)
    match r2 with
    | [] => some (mkRat base (10 ^ fp.length))
    | c :: t =>
      if c = 'e' || c = 'E' then
        let (es, t2) := splitSign t
        if !t2.isEmpty && t2.all Char.isDigit then
          let ev := digitsToNat t2
          if es = 1 then some (mkRat (base * Int.ofNat (10 ^ ev)) (10 ^ fp.length))
          else some (mkRat base (10 ^ (fp.length + ev)))
        else none
      else none

/-- `lines[idx]`: list indexing, raising `IndexError` out of range. -/
def getL (lines : List String) (i : Nat) : Except PyErr String :=
  match lines.get? i with
  | some l => .ok l
  | none => .error .indexError

/-- `parts[i]`: token indexing, raising `IndexError` out of range. -/
def tokAt (p : List String) (i : Nat) : Except PyErr String :=
  match p.get? i with
  | some t => .ok t
  | none => .error .indexError

/-- `int(t)` raising `ValueError` on failure. -/
def pyIntE (t : String) : Except PyErr Int :=
  match pyInt? t with
  | some n => .ok n
  | none => .error .valueError

/-- `float(t)` raising `ValueError` on failure. -/
def pyRatE (t : String) : Except PyErr Rat :=
  match pyRat? t with
  | some q => .ok q
  | none => .error .valueError

/-- The line preprocessing of `parse_dat_file_p51` line 15:
`l.strip().strip("'\"")` applied to each raw line. -/
def stripLine (l : String) : String := stripQuotes (stripWs l)

/-- Fields read by the first record group of `parse_dat_file_p51`
(source lines 20–36). -/
structure Rec1 where
  type_2d : String
  element : String
  nod : Int
  dir : String
  nxe : Int
  nye : Int
  nip : Int
  np_types : Int
  deriving DecidableEq, Repr

/-- `int(parts[i]) if len(parts) > i else d`: positional int with default. -/
def intAtD (p : List String) (i : Nat) (d : Int) : Except PyErr Int :=
  match p.get? i with
  | some t => pyIntE t
  | none => .ok d

/-- `float(parts[i]) if len(parts) > i else d`: positional float with
default. -/
def ratAtD (p : List String) (i : Nat) (d : Rat) : Except PyErr Rat :=
  match p.get? i with
  | some t => pyRatE t
  | none => .ok d

/-- `parts[i] if len(parts) > i else d`: positional string with default. -/
def strAtD (p : List String) (i : Nat) (d : String) : String :=
  match p.get? i with
  | some t => t
  | none => d

/-- Record group 1 of `parse_dat_file_p51` (source lines 20–36): three
consecutive physical lines yield `type_2d`, then `(element, nod, dir)`,
then `(nxe, nye, nip, np_types)`.  Returns the record and the next line
index. -/
def parseRec1 (lines : List String) (idx : Nat) : Except PyErr (Rec1 × Nat) :=
  match getL lines idx with
  | .error e => .error e
  | .ok l0 =>
    let p0 := pysplit (removeSQ l0)
    let ty := strAtD p0 0 "plane"
    match getL lines (idx + 1) with
    | .error e => .error e
    | .ok l1 =>
      let p1 := pysplit (removeSQ l1)
      let el := strAtD p1 0 "quadrilateral"
      match intAtD p1 1 4 with
      | .error e => .error e
      | .ok nod =>
        let dir := strAtD p1 2 "y"
        match getL lines (idx + 2) with
        | .error e => .error e
        | .ok l2 =>
          let p2 := pysplit l2
          match intAtD p2 0 2 with
          | .error e => .error e
          | .ok nxe =>
            match intAtD p2 1 2 with
            | .error e => .error e
            | .ok nye =>
              match intAtD p2 2 4 with
              | .error e => .error e
              | .ok nip =>
                match intAtD p2 3 1 with
                | .error e => .error e
                | .ok np =>
                  .ok (⟨ty, el, nod, dir, nxe, nye, nip, np⟩, idx + 3)

deriving instance DecidableEq for Except

/-- `[float(x) for x in parts]`: coerce every token, raising `ValueError`
at the first failure (source lines 46, 50). -/
def ratList : List String → Except PyErr (List Rat)
  | [] => .ok []
  | t :: rest =>
    match pyRat? t with
    | none => .error .valueError
    | some q =>
      match ratList rest with
      | .error e => .error e
      | .ok qs => .ok (q :: qs)

/-- Record group 2 of `parse_dat_file_p51` (source lines 38–42):
material properties `E`, `nu` from one line, with defaults `1.0e6` and
`0.3`. -/
def parseRec2 (lines : List String) (idx : Nat) :
    Except PyErr (Rat × Rat × Nat) :=
  match getL lines idx with
  | .error e => .error e
  | .ok l =>
    let p := pysplit l
    match ratAtD p 0 1000000 with
    | .error e => .error e
    | .ok e0 =>
      match ratAtD p 1 (mkRat 3 10) with
      | .error e => .error e
      | .ok nu => .ok (e0, nu, idx + 1)

/-- Record group 3 of `parse_dat_file_p51` (source lines 44–51):
`x_coords` then `y_coords`, one line each, every token coerced. -/
def parseRec3 (lines : List String) (idx : Nat) :
    Except PyErr (List Rat × List Rat × Nat) :=
  match getL lines idx with
  | .error e => .error e
  | .ok lx =>
    match ratList (pysplit lx) with
    | .error e => .error e
    | .ok xs =>
      match getL lines (idx + 1) with
      | .error e => .error e
      | .ok ly =>
        match ratList (pysplit ly) with
        | .error e => .error e
        | .ok ys => .ok (xs, ys, idx + 2)

/-- One row of the boundary-condition table (source lines 60–64). -/
structure BCRow where
  node : Int
  dof1 : Int
  dof2 : Int
  deriving DecidableEq, Repr

/-- Decode one `bc_table` row line: `int(bc_parts[0..2])`. -/
def parseBCLine (l : String) : Except PyErr BCRow :=
  let p := pysplit l
  match tokAt p 0 with
  | .error e => .error e
  | .ok t0 =>
    match pyIntE t0 with
    | .error e => .error e
    | .ok a =>
      match tokAt p 1 with
      | .error e => .error e
      | .ok t1 =>
        match pyIntE t1 with
        | .error e => .error e
        | .ok b =>
          match tokAt p 2 with
          | .error e => .error e
          | .ok t2 =>
            match pyIntE t2 with
            | .error e => .error e
            | .ok c => .ok ⟨a, b, c⟩

/-- The row loop of record group 4 (source lines 57–64):
`for i in range(nr): idx += 1; ...` — each iteration advances the index
then reads the line there. -/
def bcLoop (lines : List String) (idx : Nat) :
    Nat → Except PyErr (List BCRow × Nat)
  | 0 => .ok ([], idx)
  | Nat.succ k =>
    match getL lines (idx + 1) with
    | .error e => .error e
    | .ok l =>
      match parseBCLine l with
      | .error e => .error e
      | .ok row =>
        match bcLoop lines (idx + 1) k with
        | .error e => .error e
        | .ok (rs, j) => .ok (row :: rs, j)

/-- Record group 4 of `parse_dat_file_p51` (source lines 53–65):
`nr = int(parts[0])` from the leading line, then `nr` further lines into
`bc_table`; a final `idx += 1` steps past the leading line. -/
def parseRec4 (lines : List String) (idx : Nat) :
    Except PyErr (Int × List BCRow × Nat) :=
  match getL lines idx with
  | .error e => .error e
  | .ok l =>
    match tokAt (pysplit l) 0 with
    | .error e => .error e
    | .ok t =>
      match pyIntE t with
      | .error e => .error e
      | .ok nr =>
        match bcLoop lines idx nr.toNat with
        | .error e => .error e
        | .ok (rows, j) => .ok (nr, rows, j + 1)

/-- One row of the nodal-loads table (source lines 74–78). -/
structure LoadRow where
  node : Int
  fx : Rat
  fy : Rat
  deriving DecidableEq, Repr

/-- Decode one `nodal_loads` row line: `int`, `float`, `float`. -/
def parseLoadLine (l : String) : Except PyErr LoadRow :=
  let p := pysplit l
  match tokAt p 0 with
  | .error e => .error e
  | .ok t0 =>
    match pyIntE t0 with
    | .error e => .error e
    | .ok a =>
      match tokAt p 1 with
      | .error e => .error e
      | .ok t1 =>
        match pyRatE t1 with
        | .error e => .error e
        | .ok b =>
          match tokAt p 2 with
          | .error e => .error e
          | .ok t2 =>
            match pyRatE t2 with
            | .error e => .error e
            | .ok c => .ok ⟨a, b, c⟩

/-- The row loop of record group 5 (source lines 71–78), same shape as
`bcLoop`. -/
def loadLoop (lines : List String) (idx : Nat) :
    Nat → Except PyErr (List LoadRow × Nat)
  | 0 => .ok ([], idx)
  | Nat.succ k =>
    match getL lines (idx + 1) with
    | .error e => .error e
    | .ok l =>
      match parseLoadLine l with
      | .error e => .error e
      | .ok row =>
        match loadLoop lines (idx + 1) k with
        | .error e => .error e
        | .ok (rs, j) => .ok (row :: rs, j)

/-- Record group 5 of `parse_dat_file_p51` (source lines 67–79):
`loaded_nodes` then that many `nodal_loads` rows. -/
def parseRec5 (lines : List String) (idx : Nat) :
    Except PyErr (Int × List LoadRow × Nat) :=
  match getL lines idx with
  | .error e => .error e
  | .ok l =>
    match tokAt (pysplit l) 0 with
    | .error e => .error e
    | .ok t =>
      match pyIntE t with
      | .error e => .error e
      | .ok n =>
        match loadLoop lines idx n.toNat with
        | .error e => .error e
        | .ok (rows, j) => .ok (n, rows, j + 1)

/-- Record group 6 of `parse_dat_file_p51` (source lines 81–84):
`fixed_freedoms = int(parts[0])` from one line. -/
def parseRec6 (lines : List String) (idx : Nat) :
    Except PyErr (Int × Nat) :=
  match getL lines idx with
  | .error e => .error e
  | .ok l =>
    match tokAt (pysplit l) 0 with
    | .error e => .error e
    | .ok t =>
      match pyIntE t with
      | .error e => .error e
      | .ok ff => .ok (ff, idx + 1)

/-- One row of the prescribed-displacements table (source lines 92–96). -/
structure PDRow where
  node : Int
  sense : Int
  value : Rat
  deriving DecidableEq, Repr

/-- Decode one candidate prescribed-displacement line: the row is kept
only when the line splits into at least three tokens (source line 91);
otherwise the line is consumed without appending a row. -/
def parsePDLine (l : String) : Except PyErr (Option PDRow) :=
  let p := pysplit l
  if 3 ≤ p.length then
    match tokAt p 0 with
    | .error e => .error e
    | .ok t0 =>
      match pyIntE t0 with
      | .error e => .error e
      | .ok a =>
        match tokAt p 1 with
        | .error e => .error e
        | .ok t1 =>
          match pyIntE t1 with
          | .error e => .error e
          | .ok b =>
            match tokAt p 2 with
            | .error e => .error e
            | .ok t2 =>
              match pyRatE t2 with
              | .error e => .error e
              | .ok c => .ok (some ⟨a, b, c⟩)
  else .ok none

/-- The loop of record group 7 (source lines 88–97):
`for i in range(fixed_freedoms): if idx < len(lines): ...; idx += 1` —
when the index is already past the end an iteration does nothing at
all. -/
def pdLoop (lines : List String) (idx : Nat) :
    Nat → Except PyErr (List PDRow × Nat)
  | 0 => .ok ([], idx)
  | Nat.succ k =>
    match lines.get? idx with
    | none => pdLoop lines idx k
    | some l =>
      match parsePDLine l with
      | .error e => .error e
      | .ok none => pdLoop lines (idx + 1) k
      | .ok (some row) =>
        match pdLoop lines (idx + 1) k with
        | .error e => .error e
        | .ok (rs, j) => .ok (row :: rs, j)

/-- Record group 7 of `parse_dat_file_p51` (source lines 86–97):
conditional prescribed-displacements table guarded by the decoded
`fixed_freedoms` count (`range` of a negative count is empty, hence
`Int.toNat`). -/
def parseRec7 (lines : List String) (idx : Nat) (ff : Int) :
    Except PyErr (List PDRow × Nat) :=
  pdLoop lines idx ff.toNat

/-- Everything decoded by `parse_dat_file_p51` (source lines 12–99). -/
structure P51Data where
  rec1 : Rec1
  e_mod : Rat
  nu : Rat
  x_coords : List Rat
  y_coords : List Rat
  nr : Int
  bc_table : List BCRow
  loaded_nodes : Int
  nodal_loads : List LoadRow
  fixed_freedoms : Int
  prescribed_displacements : List PDRow
  deriving DecidableEq, Repr

/-- `parse_dat_file_p51` after line preprocessing: the sequential record
decoding of source lines 17–99, chaining the seven record groups.  Any
Python exception (`IndexError`, `ValueError`) aborts the whole parse as
`Except.error`. -/
def parse_dat_file_p51_core (lines : List String) : Except PyErr P51Data :=
  match parseRec1 lines 0 with
  | .error e => .error e
  | .ok (r1, i1) =>
    match parseRec2 lines i1 with
    | .error e => .error e
    | .ok (e0, nu, i2) =>
      match parseRec3 lines i2 with
      | .error e => .error e
      | .ok (xs, ys, i3) =>
        match parseRec4 lines i3 with
        | .error e => .error e
        | .ok (nr, bc, i4) =>
          match parseRec5 lines i4 with
          | .error e => .error e
          | .ok (ln, loads, i5) =>
            match parseRec6 lines i5 with
            | .error e => .error e
            | .ok (ff, i6) =>
              match parseRec7 lines i6 ff with
              | .error e => .error e
              | .ok (pds, _) =>
                .ok ⟨r1, e0, nu, xs, ys, nr, bc, ln, loads, ff, pds⟩

/-- `parse_dat_file_p51` (source lines 12–99): read the file's raw lines,
strip whitespace and outer quotes from each (line 15), then decode the
seven record groups in order. -/
def parse_dat_file_p51 (raw : List String) : Except PyErr P51Data :=
  parse_dat_file_p51_core (raw.map stripLine)

/-- Drop leading whitespace (the `\s*` pieces of the read-signature
regular expression). -/
def dropWsL (cs : List Char) : List Char := cs.dropWhile Char.isWhitespace

/-- Match the signature `READ\s*\(\s*10\s*,\s*\*\s*\)` (case-insensitive)
at the head of the character list, returning the characters after the
closing parenthesis (`generate_perfect_yamls.py` lines 29 and 34). -/
def matchSigAt (cs : List Char) : Option (List Char) :=
  match cs with
  | r :: e :: a :: d :: rest =>
    if r.toLower = 'r' && e.toLower = 'e' && a.toLower = 'a' && d.toLower = 'd' then
      match dropWsL rest with
      | '(' :: c2 =>
        match dropWsL c2 with
        | '1' :: '0' :: c3 =>
          match dropWsL c3 with
          | ',' :: c4 =>
            match dropWsL c4 with
            | '*' :: c5 =>
              match dropWsL c5 with
              | ')' :: after => some after
              | _ => none
            | _ => none
          | _ => none
        | _ => none
      | _ => none
    else none
  | _ => none

/-- `re.search` of the read signature: try every start position from the
left, returning the remainder after the first match. -/
def findSig : List Char → Option (List Char)
  | [] => none
  | c :: rest =>
    match matchSigAt (c :: rest) with
    | some after => some after
    | none => findSig rest

/-- `re.sub(r'^\d+\s+', '', stmt)`: strip a leading numeric statement
label (digits followed by whitespace), if present
(`generate_perfect_yamls.py` line 31). -/
def stripLabel (s : String) : String :=
  let (ds, r1) := s.toList.span Char.isDigit
  if ds.isEmpty then s
  else
    let (ws, r2) := r1.span Char.isWhitespace
    if ws.isEmpty then s else String.mk r2

/-- Separator class of `re.split(r'[,\s]+', ...)`: comma or whitespace. -/
def isSepCW (c : Char) : Bool := c = ',' || c.isWhitespace

/-- Helper for `splitCW`: split on runs of comma/whitespace. -/
def splitCWAux : List Char → List Char → List String
  | [], acc => if acc.isEmpty then [] else [String.mk acc.reverse]
  | c :: rest, acc =>
    if isSepCW c then
      if acc.isEmpty then splitCWAux rest []
      else String.mk acc.reverse :: splitCWAux rest []
    else splitCWAux rest (c :: acc)

/-- `re.split(r'[,\s]+', s)` followed by the `if v.strip()` filter
(`generate_perfect_yamls.py` line 41): split on runs of commas and
whitespace, dropping empty pieces. -/
def splitCW (s : String) : List String := splitCWAux s.toList []

/-- Prefix of a string before the first `!`
(`var_part.split('!')[0]`, line 40). -/
def beforeBang (s : String) : String :=
  String.mk (s.toList.takeWhile (fun c => c ≠ '!'))

/-- Variable extraction of `find_read_statements`
(`generate_perfect_yamls.py` lines 34–41): re-locate the read signature
in the statement, take the remainder (`\s*(.+)` then `.strip()`), cut a
trailing `!` comment, and split the rest on commas and whitespace.  A
statement with no remainder yields the empty list. -/
def extractVars (stmt : String) : List String :=
  match findSig stmt.toList with
  | none => []
  | some rest =>
    let vp := stripWs (String.mk rest)
    if vp = "" then []
    else
      let vp2 := if vp.toList.contains '!' then stripWs (beforeBang vp) else vp
      splitCW vp2

/-- A read-statement descriptor (`generate_perfect_yamls.py`
lines 43–47). -/
structure ReadStmt where
  line : Nat
  stmt : String
  vars : List String
  deriving DecidableEq, Repr

/-- The line loop of `find_read_statements`
(`generate_perfect_yamls.py` lines 28–47), carrying the 1-based line
number. -/
def findReadAux (k : Nat) : List String → List ReadStmt
  | [] => []
  | l :: rest =>
    if (findSig l.toList).isSome then
      let st := stripLabel (stripWs l)
      ⟨k, st, extractVars st⟩ :: findReadAux (k + 1) rest
    else findReadAux (k + 1) rest

/-- `find_read_statements` (`generate_perfect_yamls.py` lines 23–50) on
the source file's line list: one descriptor per line containing the read
signature, in order, with 1-based line numbers. -/
def find_read_statements (ls : List String) : List ReadStmt := findReadAux 1 ls

/-- `str.startswith('!')` on a string. -/
def startsBang (s : String) : Bool :=
  match s.toList with
  | c :: _ => c = '!'
  | [] => false

/-- Content-line accumulation loop of `parse_dat_file`
(`generate_perfect_yamls.py` lines 56–62): each element of the input is
either a decoded line or a decoding failure (`UnicodeDecodeError` while
iterating the file).  A failure raises, and the surrounding
`except` handler discards everything read so far and returns `[]`. -/
def pdfAux : List (Except Unit String) → List String → List String
  | [], acc => acc.reverse
  | .error _ :: _, _ => []
  | .ok l :: rest, acc =>
    let s := stripWs l
    if s ≠ "" && !(startsBang s) then pdfAux rest (s :: acc)
    else pdfAux rest acc

/-- `parse_dat_file` (`generate_perfect_yamls.py` lines 52–65).  The
argument models the file system: `Except.error` means the file could not
be opened (the `open` call raises), and each line is a decoding result.
Every exception is caught by the handler at line 63, which prints a
warning and returns the empty list. -/
def parse_dat_file (file : Except Unit (List (Except Unit String))) :
    List String :=
  match file with
  | .error _ => []
  | .ok raws => pdfAux raws []

/-- `str.lower()`. -/
def lowerStr (s : String) : String :=
  String.mk (s.toList.map Char.toLower)

/-- Substring test (Python `pat in hay`), needle fixed, scanning the
haystack left to right. -/
def listContainsSub (needle : List Char) : List Char → Bool
  | [] => needle.isEmpty
  | c :: rest => needle.isPrefixOf (c :: rest) || listContainsSub needle rest

/-- Python `pat in hay` on strings. -/
def strContainsSub (hay pat : String) : Bool :=
  listContainsSub pat.toList hay.toList

/-- Python `str.strip("'")`: remove leading and trailing apostrophes. -/
def stripSQonly (s : String) : String :=
  String.mk (((s.toList.dropWhile (fun c => c = sqChar)).reverse.dropWhile
    (fun c => c = sqChar)).reverse)

/-- The `try int(lines[1].split()[1]) except: d` fallback used for `nod`
(`generate_chap05_yamls.py` lines 120–130): any failure (missing line,
missing token, bad coercion) yields the default. -/
def nodTry (lines : List String) (d : Int) : Int :=
  match lines.get? 1 with
  | none => d
  | some l1 =>
    match (pysplit l1).get? 1 with
    | none => d
    | some t =>
      match pyInt? t with
      | none => d
      | some n => n

/-- `detect_element_info` (`generate_chap05_yamls.py` lines 109–137).
The argument models the file system: `none` means the file could not be
opened or read (the outer `except` fires immediately), `some raw` gives
the file's lines.  The first three lines are stripped of whitespace and
apostrophes; an `IndexError` from `lines[1].split()[0]` on a blank
second line also lands in the outer `except`, whose handler returns
`('plane', 'quadrilateral', 4)`. -/
def detect_element_info (file : Option (List String)) :
    String × String × Int :=
  match file with
  | none => ("plane", "quadrilateral", 4)
  | some raw =>
    let lines := (raw.take 3).map (fun l => stripSQonly (stripWs l))
    let formulation :=
      match lines.get? 0 with
      | some l => l
      | none => "plane"
    match lines.get? 1 with
    | none => (formulation, "quadrilateral", nodTry lines 4)
    | some l1 =>
      match (pysplit l1).get? 0 with
      | none => ("plane", "quadrilateral", 4)
      | some t0 =>
        let etl := lowerStr (stripSQonly t0)
        if strContainsSub etl "triangle" then
          (formulation, "triangle", nodTry lines 3)
        else if strContainsSub etl "quadrilateral" then
          (formulation, "quadrilateral", nodTry lines 4)
        else (formulation, "hexahedron", 8)

/-- A YAML-able value: the shape of the nested dict built by
`generate_yaml_from_source`.  Python dicts preserve insertion order, so a
mapping is an ordered association list. -/
inductive YVal where
  | s (v : String)
  | n (v : Int)
  | arr (items : List YVal)
  | map (entries : List (String × YVal))

/-- Result of `analyze_source_for_metadata`
(`generate_perfect_yamls.py` lines 67–108).  The function only reads the
companion source file, so its result is modelled as an input to the
projector. -/
structure SrcMeta where
  dimension : Int
  physics : String
  dof_per_node : Int

/-- Tunable-parameter entries contributed by one read statement
(`generate_perfect_yamls.py` lines 114–151), in source order:
material properties, mesh parameters, loads, coordinates. -/
def tunablesFor (i : Nat) (vlist : List String) : List YVal :=
  (if vlist.any (fun v => strContainsSub (lowerStr v) "prop") then
    [YVal.map [("name", .s "material_properties"),
      ("path", .s ("inputs.record" ++ toString (i + 1) ++ ".prop")),
      ("type", .s "real"),
      ("notes", .s "Material properties (E, nu, density, etc.)")]]
   else []) ++
  (if vlist.any (fun v =>
      v = "nxe" || v = "nye" || v = "nze" || v = "nels" || v = "nn") then
    [YVal.map [("name", .s "mesh_parameters"),
      ("path", .s ("inputs.record" ++ toString (i + 1))),
      ("type", .s "int"),
      ("notes", .s "Mesh configuration (elements, nodes, divisions)")]]
   else []) ++
  (if vlist.any (fun v => strContainsSub (lowerStr v) "load") then
    [YVal.map [("name", .s "applied_loads"),
      ("path", .s ("inputs.record" ++ toString (i + 1))),
      ("type", .s "real"),
      ("notes", .s "Applied nodal or distributed loads")]]
   else []) ++
  (if vlist.any (fun v => strContainsSub (lowerStr v) "coord") then
    [YVal.map [("name", .s "nodal_coordinates"),
      ("path", .s ("inputs.record" ++ toString (i + 1))),
      ("type", .s "real"),
      ("notes", .s "Node  coordinate values")]]
   else [])

/-- `extract_tunable_parameters` (`generate_perfect_yamls.py`
lines 110–158); the `dat_lines` argument is present but unused, exactly
as in the source. -/
def extract_tunable_parameters (read_stmts : List ReadStmt)
    (dat_lines : List String) : List YVal :=
  let _ := dat_lines
  let ts := (read_stmts.enum.map (fun p => tunablesFor p.1 p.2.vars)).flatten
  if ts.isEmpty then
    [YVal.map [("name", .s "parameters"), ("path", .s "inputs"),
      ("type", .s "mixed"),
      ("notes", .s "Model parameters from .dat file")]]
  else ts

/-- Match `IF\s*\(([^)]+)\)` (case-insensitive) at the head of the
character list, returning the guard text between the parentheses
(`generate_perfect_yamls.py` line 173). -/
def matchIfAt (cs : List Char) : Option String :=
  match cs with
  | i :: f :: rest =>
    if i.toLower = 'i' && f.toLower = 'f' then
      match dropWsL rest with
      | '(' :: r2 =>
        let body := r2.takeWhile (fun c => c ≠ ')')
        if body.isEmpty then none
        else if (r2.dropWhile (fun c => c ≠ ')')).isEmpty then none
        else some (String.mk body)
      | _ => none
    else none
  | _ => none

/-- `re.search` of the `IF (...)` guard pattern: first match wins. -/
def findIfCond : List Char → Option String
  | [] => none
  | c :: rest =>
    match matchIfAt (c :: rest) with
    | some s => some s
    | none => findIfCond rest

/-- One schema record of `create_input_schema`
(`generate_perfect_yamls.py` lines 164–177). -/
def schemaEntry (i : Nat) (rs : ReadStmt) : YVal :=
  .map ([("record", .n (Int.ofNat (i + 1))),
    ("fortran_read", .s rs.stmt),
    ("variables", .arr (rs.vars.map YVal.s))] ++
    (if strContainsSub rs.stmt "IF" || strContainsSub (lowerStr rs.stmt) "if" then
      match findIfCond rs.stmt.toList with
      | some c => [("condition", .s ("only if " ++ c))]
      | none => []
     else []))

/-- `create_input_schema` (`generate_perfect_yamls.py` lines 160–179). -/
def create_input_schema (read_stmts : List ReadStmt) : List YVal :=
  read_stmts.enum.map (fun p => schemaEntry p.1 p.2)

/-- `map_dat_to_inputs` (`generate_perfect_yamls.py` lines 181–192):
one `recordN` entry per dataset line, truncated to the number of read
statements. -/
def map_dat_to_inputs (dat_lines : List String)
    (read_stmts : List ReadStmt) : List (String × YVal) :=
  (dat_lines.take read_stmts.length).enum.map (fun p =>
    ("record" ++ toString (p.1 + 1),
      YVal.map [("raw_value", .s p.2),
        ("description", .s
          (match read_stmts.get? p.1 with
           | some rs => "Values for " ++ String.intercalate ", " rs.vars
           | none => "Additional data"))]))

/-- `chapter.replace('chap', '')` (`generate_perfect_yamls.py`
line 219): delete every occurrence of `chap`. -/
def stripChapAll : List Char → List Char
  | 'c' :: 'h' :: 'a' :: 'p' :: rest => stripChapAll rest
  | c :: rest => c :: stripChapAll rest
  | [] => []

/-- `generate_yaml_from_source` (`generate_perfect_yamls.py`
lines 216–304), the Output Projector.  `md` and `title` stand for the
results of `analyze_source_for_metadata` and `infer_program_title`
(both read only the companion source file); `today` is the value of
`str(date.today())` at line 238 — the projector's output depends on the
day the run happens.  `program[1]` and `int(chapter_num)` can raise
(`IndexError`/`ValueError`), modelled with `Except`; Python evaluates the
`title` entry (which indexes `program`) before `authors.source.chapter`
(which coerces the chapter number). -/
def generate_yaml_from_source (case chapter program : String) (md : SrcMeta)
    (title : String) (read_stmts : List ReadStmt) (dat_lines : List String)
    (today : String) : Except PyErr YVal :=
  let chapter_num := String.mk (stripChapAll chapter.toList)
  match program.toList.get? 1 with
  | none => .error .indexError
  | some p1 =>
    match pyIntE chapter_num with
    | .error e => .error e
    | .ok chn =>
      .ok (.map [
        ("id", .s ("pfem5_ch" ++ chapter_num ++ "_" ++ program ++ "_" ++ case)),
        ("title", .s ("PFEM Program " ++ String.mk [p1] ++ "." ++
          String.mk (program.toList.drop 2) ++ " (" ++ program ++ ") — " ++
          title ++ " — case " ++ case)),
        ("purpose", .s ("Analysis using " ++ md.physics ++
          " formulation in " ++ toString md.dimension ++ "D.")),
        ("authors", .map [
          ("source", .map [
            ("book", .s "Programming the Finite Element Method"),
            ("edition", .s "5th"),
            ("chapter", .n chn),
            ("program", .s program),
            ("dataset", .s case)]),
          ("entry", .map [
            ("created_by", .s "Naeem"),
            ("created_on", .s today),
            ("verified_platform", .s "Linux (gfortran)")])]),
        ("code", .map [
          ("language", .s "Fortran (F2003)"),
          ("source_file", .s ("source/" ++ chapter ++ "/" ++ program ++ ".f03")),
          ("uses_modules", .arr [.s "main", .s "geom"]),
          ("io_reads_from_unit10", .arr (read_stmts.map (fun r =>
            .map [("line", .n (Int.ofNat r.line)), ("stmt", .s r.stmt)])))]),
        ("fem", .map [
          ("dimension", .n md.dimension),
          ("dof", .map [("per_node", .n md.dof_per_node)])]),
        ("analysis", .map [
          ("physics", .s md.physics),
          ("type", .s (if strContainsSub md.physics "linear" then "linear"
            else "nonlinear")),
          ("regime", .s "steady-state")]),
        ("units", .map [
          ("system", .s "consistent"),
          ("notes", .s "PFEM assumes consistent units. Choose a unit system and maintain consistency.")]),
        ("tunable_parameters", .arr
          (extract_tunable_parameters read_stmts dat_lines)),
        ("input_schema", .map [
          ("file_type", .s ".dat"),
          ("reads_in_order", .arr (create_input_schema read_stmts))]),
        ("inputs", .map ([
          ("working_directory", .s ("executable/" ++ chapter)),
          ("basename", .s case),
          ("dat_file", .s ("executable/" ++ chapter ++ "/" ++ case ++ ".dat"))] ++
          map_dat_to_inputs dat_lines read_stmts)),
        ("outputs", .map [
          ("output_directory", .s ("executable/" ++ chapter)),
          ("files_expected", .arr [.s (case ++ ".res"), .s (case ++ ".msh")])]),
        ("how_to_run", .map [
          ("linux", .arr [
            .s ("cd ~/Downloads/pfem5/5th_ed/executable/" ++ chapter),
            .s ("printf \x22" ++ case ++
              "\\n\x22 | ~/Downloads/pfem5/5th_ed/build/bin/" ++ program)]),
          ("matlab", .arr [
            .s ("pfem_root = \x27~/Downloads/pfem5/5th_ed\x27;"),
            .s ("[status, outputs] = pfem_runner(pfem_root, \x27" ++ chapter ++
              "\x27, \x27" ++ program ++ "\x27, \x27" ++ case ++ "\x27);")])]),
        ("notes", .arr [
          .s "Program prompts for the base name of the .dat file (do not type the .dat extension).",
          .s ("This case has " ++ toString read_stmts.length ++
            " READ(10,*) statements reading from the .dat file.")])])

/-- Top-level key sequence of a projected document. -/
def topKeys (y : YVal) : List String :=
  match y with
  | .map es => es.map Prod.fst
  | _ => []

/-- Look a key up in a mapping value (first match). -/
def lookupY (y : YVal) (k : String) : Option YVal :=
  match y with
  | .map es =>
    match es.find? (fun p => p.1 = k) with
    | some p => some p.2
    | none => none
  | _ => none

/-- The `authors.entry.created_on` string of a projection result. -/
def createdOnOf (r : Except PyErr YVal) : Option String :=
  match r with
  | .ok y =>
    match lookupY y "authors" with
    | some a =>
      match lookupY a "entry" with
      | some e =>
        match lookupY e "created_on" with
        | some (.s t) => some t
        | _ => none
      | none => none
    | none => none
  | .error _ => none

/-- The fixed top-level key order produced by the projector: the
insertion order of the source's dict literal (lines 223–302), preserved
by `yaml.dump(..., sort_keys=False)` at line 344. -/
def projKeyOrder : List String :=
  ["id", "title", "purpose", "authors", "code", "fem", "analysis", "units",
   "tunable_parameters", "input_schema", "inputs", "outputs", "how_to_run",
   "notes"]

/-- Lexicographic order on character lists (by code point), used to
state that a key sequence is not alphabetically sorted. -/
def lexLe : List Char → List Char → Bool
  | [], _ => true
  | _ :: _, [] => false
  | a :: as, b :: bs => if a = b then lexLe as bs else decide (a.toNat ≤ b.toNat)

/-- Alphabetical (lexicographic) order on strings. -/
def strLexLe (a b : String) : Bool := lexLe a.toList b.toList

/-! ## Theorems -/

-- Tokens produced by `splitCWAux` never contain a comma or whitespace
-- character: the splitter cuts at every such character, including the
-- commas inside a parenthesized implied-loop construct.
theorem splitCWAux_sep_free : ∀ (cs acc : List Char),
    (∀ c, c ∈ acc → isSepCW c = false) →
    ∀ v, v ∈ splitCWAux cs acc → ∀ c, c ∈ v.toList → isSepCW c = false := by
  intro cs
  induction cs with
  | nil =>
    intro acc hacc v hv c hc
    unfold splitCWAux at hv
    by_cases he : acc.isEmpty
    · simp [he] at hv
    · simp [he] at hv
      subst hv
      exact hacc c (by simpa using hc)
  | cons c0 rest ih =>
    intro acc hacc v hv c hc
    unfold splitCWAux at hv
    by_cases h0 : isSepCW c0
    · by_cases he : acc.isEmpty
      · simp [h0, he] at hv
        exact ih [] (by simp) v hv c hc
      · simp [h0, he] at hv
        rcases hv with hv | hv
        · subst hv
          exact hacc c (by simpa using hc)
        · exact ih [] (by simp) v hv c hc
    · simp [h0] at hv
      refine ih (c0 :: acc) ?_ v hv c hc
      intro d hd
      rcases List.mem_cons.mp hd with h | h
      · subst h; exact Bool.not_eq_true _ ▸ (by simpa using h0)
      · exact hacc d h

/-- C4 — corrected (amended claim): the variable split of
`find_read_statements` cuts at every comma and whitespace run, inside
parentheses too, so no extracted variable token ever contains a comma or
whitespace; a Fortran implied-loop construct therefore can never appear
as a single token and is split at its internal commas. -/
theorem extractVars_token_sep_free : ∀ (s v : String) (c : Char),
    v ∈ extractVars s → c ∈ v.toList → isSepCW c = false := by
  intro s v c hv hc
  unfold extractVars at hv
  cases hfs : findSig s.toList with
  | none => rw [hfs] at hv; simp at hv
  | some rest =>
    rw [hfs] at hv
    simp only at hv
    by_cases hvp : stripWs (String.mk rest) = ""
    · simp [hvp] at hv
    · simp only [hvp, if_false] at hv
      exact splitCWAux_sep_free _ [] (by simp) v hv c hc

/-- Witness for `extractVars_token_sep_free`: the token `nr` extracted
from `READ(10,*) nr` contains the letter `n`, which is neither a comma
nor whitespace. -/
theorem extractVars_token_sep_free_witness : isSepCW 'n' = false :=
  extractVars_token_sep_free "READ(10,*) nr" "nr" 'n' (by decide) (by decide)

/-- C4 — counterexample to the claim as stated: on the p51 read
statement `READ(10,*) nr,(k,nf(:,k),i=1,nr)` the extractor splits the
implied-loop construct at its internal commas into five fragments; the
construct does not appear as a single token in the variable list. -/
theorem find_read_statements_splits_implied_loop :
    find_read_statements ["READ(10,*) nr,(k,nf(:,k),i=1,nr)"] =
      [⟨1, "READ(10,*) nr,(k,nf(:,k),i=1,nr)",
        ["nr", "(k", "nf(:", "k)", "i=1", "nr)"]⟩] ∧
    "(k,nf(:,k),i=1,nr)" ∉
      extractVars "READ(10,*) nr,(k,nf(:,k),i=1,nr)" := by
  constructor
  · decide
  · decide

/-- C1 — corrected (amended claim): the first record group is decoded
from three consecutive content lines — `type_2d` from the first,
`(element, nod, dir)` from the second, `(nxe, nye, nip, np_types)` from
the third — and for the dataset lines `'plane'` / `'quadrilateral' 4 y`
/ `2 2 4 1` it produces exactly the record of Scenario A, leaving the
line index at 3. -/
theorem parseRec1_three_lines : ∀ rest : List String,
    parseRec1 ((["\x27plane\x27", "\x27quadrilateral\x27 4 y", "2 2 4 1"].map stripLine)
      ++ rest) 0 =
      .ok (⟨"plane", "quadrilateral", 4, "y", 2, 2, 4, 1⟩, 3) := by
  intro rest
  rfl

/-- C1 — counterexample to the claim as stated: on a dataset whose
first content line carries all eight tokens
(`'plane' 'quadrilateral' 4 y 2 2 4 1`), the decoder does not consume
one line and does not produce the Scenario A record: it takes `element`
and the numeric fields from the following two lines, ending at line
index 3 with `element = "2"`. -/
theorem parseRec1_one_line_dataset :
    parseRec1 (["\x27plane\x27 \x27quadrilateral\x27 4 y 2 2 4 1", "2 2 4 1",
      "9 9 9 9"].map stripLine) 0 =
      .ok (⟨"plane", "2", 2, "4", 9, 9, 9, 9⟩, 3) := by decide

-- A decode error anywhere in the line sequence makes the accumulation
-- loop of `parse_dat_file` return the empty list, whatever was read
-- before.
theorem pdfAux_error_nil : ∀ (pre : List String) (acc : List String)
    (rest : List (Except Unit String)),
    pdfAux (pre.map Except.ok ++ Except.error () :: rest) acc = [] := by
  intro pre
  induction pre with
  | nil => intro acc rest; rfl
  | cons l pre ih =>
    intro acc rest
    simp only [List.map_cons, List.cons_append]
    unfold pdfAux
    by_cases h : stripWs l ≠ "" && !startsBang (stripWs l)
    · simp only [h]; exact ih _ _
    · simp only [h]; exact ih _ _

/-- C7 — corrected (amended claim): the dataset line reader
`parse_dat_file` never raises and never signals `ResourceError`: an
unopenable file returns the empty line list, and a decoding failure on
any line also returns the empty line list, discarding every line read
before it (the batch continues because the reader returns normally). -/
theorem parse_dat_file_swallows_errors :
    (∀ (pre : List String) (rest : List (Except Unit String)),
      parse_dat_file (.ok (pre.map Except.ok ++ Except.error () :: rest)) = [])
    ∧ parse_dat_file (.error ()) = [] := by
  constructor
  · intro pre rest
    unfold parse_dat_file
    exact pdfAux_error_nil pre [] rest
  · rfl

/-- C7 — counterexample to the claim as stated: a single undecodable
byte aborts extraction of the whole file — the reader returns `[]`,
losing the line `a b` it had already read (contrast with the clean
file), instead of replacing the bad byte and continuing; and an
unopenable file also returns `[]` rather than failing with
`ResourceError`. -/
theorem parse_dat_file_bad_byte_aborts :
    parse_dat_file (.ok [.ok " a b ", .error ()]) = [] ∧
    parse_dat_file (.ok [.ok " a b "]) = ["a b"] ∧
    parse_dat_file (.error ()) = [] := by
  refine ⟨rfl, by decide, rfl⟩

-- Descriptor extraction distributes over list append, with the line
-- counter advanced by the length of the first part.
theorem findReadAux_append : ∀ (xs : List String) (k : Nat) (ys : List String),
    findReadAux k (xs ++ ys) =
      findReadAux k xs ++ findReadAux (k + xs.length) ys := by
  intro xs
  induction xs with
  | nil => intro k ys; simp [findReadAux]
  | cons l rest ih =>
    intro k ys
    have h2 : k + (l :: rest).length = k + 1 + rest.length := by
      simp only [List.length_cons]
      omega
    rw [h2]
    simp only [List.cons_append, findReadAux, ih (k + 1) ys]
    split_ifs <;> simp [ih (k + 1) ys]

-- A line consisting of the bare read signature yields a descriptor with
-- an empty variable list and processing moves on to the next line.
theorem findReadAux_bare_read : ∀ (m : Nat) (post : List String),
    findReadAux m ("READ(10,*)" :: post) =
      ⟨m, "READ(10,*)", []⟩ :: findReadAux (m + 1) post := by
  intro m post
  rfl

/-- C8 — confirmed: a source line that matches the read signature but
has no variable remainder (here the bare `READ(10,*)`) still yields a
descriptor, with an empty variable list, and extraction continues with
all following lines — the statements before and after it are extracted
exactly as they would be on their own. -/
theorem find_read_statements_empty_vars_continue : ∀ (pre post : List String),
    find_read_statements (pre ++ "READ(10,*)" :: post) =
      find_read_statements pre ++
        ⟨pre.length + 1, "READ(10,*)", []⟩ ::
          findReadAux (pre.length + 2) post := by
  intro pre post
  unfold find_read_statements
  rw [findReadAux_append, Nat.add_comm 1 pre.length, findReadAux_bare_read]

/-- C10 — confirmed: `detect_element_info` is total and safe: an
unreadable or missing file, an empty file, and a file whose second line
is blank (the one uncaught `IndexError` inside the `try` body) all fall
back to `("plane", "quadrilateral", 4)`, and for every readable file
whatsoever the element family is one of `triangle`, `quadrilateral`,
`hexahedron`. -/
theorem detect_element_info_total :
    detect_element_info none = ("plane", "quadrilateral", 4) ∧
    detect_element_info (some []) = ("plane", "quadrilateral", 4) ∧
    detect_element_info (some ["plane", ""]) = ("plane", "quadrilateral", 4) ∧
    (∀ raw : List String, (detect_element_info (some raw)).2.1 ∈
      (["triangle", "quadrilateral", "hexahedron"] : List String)) := by
  refine ⟨rfl, rfl, by decide, ?_⟩
  intro raw
  unfold detect_element_info
  dsimp only
  split
  · simp
  · split
    · simp
    · split_ifs <;> simp

-- Conversion lemmas from `get?`/`Option` facts to the `Except`-valued
-- accessors of the embedding.
theorem getL_of_get? {lines : List String} {i : Nat} {l : String}
    (h : lines.get? i = some l) : getL lines i = .ok l := by
  unfold getL
  rw [h]

theorem tokAt_of_get? {p : List String} {i : Nat} {t : String}
    (h : p.get? i = some t) : tokAt p i = .ok t := by
  unfold tokAt
  rw [h]

theorem pyIntE_of_some {t : String} {n : Int}
    (h : pyInt? t = some n) : pyIntE t = .ok n := by
  unfold pyIntE
  rw [h]

-- When the `n` lines after the current index each parse as a
-- boundary-condition row, the record-4 row loop succeeds, returns one
-- row per line, and leaves the index `n` further on.
theorem bcLoop_of_good : ∀ (k : Nat) (lines : List String) (idx : Nat),
    (∀ j, j < k → ∃ l r, lines.get? (idx + 1 + j) = some l ∧
      parseBCLine l = .ok r) →
    ∃ rows, bcLoop lines idx k = .ok (rows, idx + k) ∧ rows.length = k := by
  intro k
  induction k with
  | zero => intro lines idx _; exact ⟨[], rfl, rfl⟩
  | succ k ih =>
    intro lines idx h
    obtain ⟨l, r, hl, hr⟩ := h 0 (Nat.succ_pos k)
    obtain ⟨rows, hrows, hlen⟩ := ih lines (idx + 1) (fun j hj => by
      obtain ⟨l2, r2, hl2, hr2⟩ := h (j + 1) (by omega)
      refine ⟨l2, r2, ?_, hr2⟩
      rw [show idx + 1 + 1 + j = idx + 1 + (j + 1) by omega]
      exact hl2)
    have hg : getL lines (idx + 1) = .ok l := getL_of_get? (by simpa using hl)
    refine ⟨r :: rows, ?_, by simp [hlen]⟩
    have harr : idx + 1 + k = idx + (k + 1) := by omega
    simp only [bcLoop, hg, hr, hrows, harr]

-- Same property for the record-5 nodal-loads row loop.
theorem loadLoop_of_good : ∀ (k : Nat) (lines : List String) (idx : Nat),
    (∀ j, j < k → ∃ l r, lines.get? (idx + 1 + j) = some l ∧
      parseLoadLine l = .ok r) →
    ∃ rows, loadLoop lines idx k = .ok (rows, idx + k) ∧ rows.length = k := by
  intro k
  induction k with
  | zero => intro lines idx _; exact ⟨[], rfl, rfl⟩
  | succ k ih =>
    intro lines idx h
    obtain ⟨l, r, hl, hr⟩ := h 0 (Nat.succ_pos k)
    obtain ⟨rows, hrows, hlen⟩ := ih lines (idx + 1) (fun j hj => by
      obtain ⟨l2, r2, hl2, hr2⟩ := h (j + 1) (by omega)
      refine ⟨l2, r2, ?_, hr2⟩
      rw [show idx + 1 + 1 + j = idx + 1 + (j + 1) by omega]
      exact hl2)
    have hg : getL lines (idx + 1) = .ok l := getL_of_get? (by simpa using hl)
    refine ⟨r :: rows, ?_, by simp [hlen]⟩
    have harr : idx + 1 + k = idx + (k + 1) := by omega
    simp only [loadLoop, hg, hr, hrows, harr]

/-- C2 — confirmed: for both count-led table groups of
`parse_dat_file_p51` (record 4, `nr`/`bc_table`, and record 5,
`loaded_nodes`/`nodal_loads`), when the leading line's first token
coerces to the integer `n` and the next `n` lines each decode as a row,
the group consumes the leading line plus exactly `n` further lines (the
final index is `idx + 1 + n`) and the table has exactly `n` rows — in
particular `n = 0` consumes no line beyond the leading one. -/
theorem rowcount_groups :
    (∀ (lines : List String) (idx n : Nat) (l t : String),
      lines.get? idx = some l →
      (pysplit l).get? 0 = some t →
      pyInt? t = some (Int.ofNat n) →
      (∀ j, j < n → ∃ l2 r, lines.get? (idx + 1 + j) = some l2 ∧
        parseBCLine l2 = .ok r) →
      ∃ rows, parseRec4 lines idx = .ok (Int.ofNat n, rows, idx + 1 + n) ∧
        rows.length = n)
    ∧ (∀ (lines : List String) (idx n : Nat) (l t : String),
      lines.get? idx = some l →
      (pysplit l).get? 0 = some t →
      pyInt? t = some (Int.ofNat n) →
      (∀ j, j < n → ∃ l2 r, lines.get? (idx + 1 + j) = some l2 ∧
        parseLoadLine l2 = .ok r) →
      ∃ rows, parseRec5 lines idx = .ok (Int.ofNat n, rows, idx + 1 + n) ∧
        rows.length = n) := by
  constructor
  · intro lines idx n l t hl htok hint hrows
    obtain ⟨rows, heq, hlen⟩ := bcLoop_of_good n lines idx hrows
    have hg : getL lines idx = .ok l := getL_of_get? hl
    have ht : tokAt (pysplit l) 0 = .ok t := tokAt_of_get? htok
    have hi : pyIntE t = .ok (Int.ofNat n) := pyIntE_of_some hint
    have htn : (Int.ofNat n).toNat = n := rfl
    refine ⟨rows, ?_, hlen⟩
    have harr : idx + n + 1 = idx + 1 + n := by omega
    simp only [parseRec4, hg, ht, hi, htn, heq, harr]
  · intro lines idx n l t hl htok hint hrows
    obtain ⟨rows, heq, hlen⟩ := loadLoop_of_good n lines idx hrows
    have hg : getL lines idx = .ok l := getL_of_get? hl
    have ht : tokAt (pysplit l) 0 = .ok t := tokAt_of_get? htok
    have hi : pyIntE t = .ok (Int.ofNat n) := pyIntE_of_some hint
    have htn : (Int.ofNat n).toNat = n := rfl
    refine ⟨rows, ?_, hlen⟩
    have harr : idx + n + 1 = idx + 1 + n := by omega
    simp only [parseRec5, hg, ht, hi, htn, heq, harr]

/-- Witness for `rowcount_groups`: Scenario B — the lines `2`, `1 0 1`,
`5 1 0` decode to `nr = 2` with the two exact row maps, consuming three
lines; `0` alone decodes to an empty table consuming one line; and a
record-5 group with count 1 consumes two lines. -/
theorem rowcount_groups_witness :
    (∃ rows, parseRec4 ["2", "1 0 1", "5 1 0"] 0 = .ok (2, rows, 3) ∧
      rows.length = 2) ∧
    parseRec4 ["2", "1 0 1", "5 1 0"] 0 =
      .ok (2, [⟨1, 0, 1⟩, ⟨5, 1, 0⟩], 3) ∧
    (∃ rows, parseRec4 ["0"] 0 = .ok (0, rows, 1) ∧ rows.length = 0) ∧
    (∃ rows, parseRec5 ["1", "3 0.5 1.5"] 0 = .ok (1, rows, 2) ∧
      rows.length = 1) := by
  refine ⟨?_, by decide, ?_, ?_⟩
  · refine rowcount_groups.1 ["2", "1 0 1", "5 1 0"] 0 2 "2" "2"
      (by decide) (by decide) (by decide) ?_
    intro j hj
    interval_cases j
    · exact ⟨"1 0 1", ⟨1, 0, 1⟩, by decide, by decide⟩
    · exact ⟨"5 1 0", ⟨5, 1, 0⟩, by decide, by decide⟩
  · exact rowcount_groups.1 ["0"] 0 0 "0" "0" (by decide) (by decide)
      (by decide) (fun j hj => absurd hj (by omega))
  · refine rowcount_groups.2 ["1", "3 0.5 1.5"] 0 1 "1" "1"
      (by decide) (by decide) (by decide) ?_
    intro j hj
    interval_cases j
    exact ⟨"3 0.5 1.5", ⟨3, mkRat 1 2, mkRat 3 2⟩, by decide, by decide⟩

-- When the `k` lines from the current index each decode as a
-- prescribed-displacement row, the record-7 loop returns one row per
-- line and advances the index by `k`.
theorem pdLoop_of_good : ∀ (k : Nat) (lines : List String) (idx : Nat),
    (∀ j, j < k → ∃ l r, lines.get? (idx + j) = some l ∧
      parsePDLine l = .ok (some r)) →
    ∃ rows, pdLoop lines idx k = .ok (rows, idx + k) ∧ rows.length = k := by
  intro k
  induction k with
  | zero => intro lines idx _; exact ⟨[], rfl, rfl⟩
  | succ k ih =>
    intro lines idx h
    obtain ⟨l, r, hl, hr⟩ := h 0 (Nat.succ_pos k)
    obtain ⟨rows, hrows, hlen⟩ := ih lines (idx + 1) (fun j hj => by
      obtain ⟨l2, r2, hl2, hr2⟩ := h (j + 1) (by omega)
      refine ⟨l2, r2, ?_, hr2⟩
      rw [show idx + 1 + j = idx + (j + 1) by omega]
      exact hl2)
    have hl0 : lines.get? idx = some l := by simpa using hl
    refine ⟨r :: rows, ?_, by simp [hlen]⟩
    have harr : idx + 1 + k = idx + (k + 1) := by omega
    unfold pdLoop
    rw [hl0]
    simp only [hr, hrows, harr]

/-- C6 — confirmed: the conditional record group 7 of
`parse_dat_file_p51`, guarded by the decoded `fixed_freedoms` value:
with guard 0 it consumes no content line and contributes an empty table
(the decoder's index is unchanged); with guard `k` and `k` well-formed
lines available it decodes exactly `k` rows, consuming `k` lines, the
guard field acting as the implicit row count. -/
theorem conditional_group_guard :
    (∀ (lines : List String) (idx : Nat), parseRec7 lines idx 0 = .ok ([], idx))
    ∧ (∀ (lines : List String) (idx k : Nat),
        (∀ j, j < k → ∃ l r, lines.get? (idx + j) = some l ∧
          parsePDLine l = .ok (some r)) →
        ∃ rows, parseRec7 lines idx (Int.ofNat k) = .ok (rows, idx + k) ∧
          rows.length = k) := by
  constructor
  · intro lines idx; rfl
  · intro lines idx k h
    simpa [parseRec7] using pdLoop_of_good k lines idx h

/-- Witness for `conditional_group_guard`: with `fixed_freedoms = 0` the
group consumes nothing even though a candidate line is present; with
guard 2 and two well-formed lines it yields two rows and advances by
two lines. -/
theorem conditional_group_guard_witness :
    parseRec7 ["9 9 9.0"] 0 0 = .ok ([], 0) ∧
    (∃ rows, parseRec7 ["1 2 0.5", "3 1 1.5"] 0 2 = .ok (rows, 2) ∧
      rows.length = 2) := by
  refine ⟨conditional_group_guard.1 ["9 9 9.0"] 0, ?_⟩
  refine conditional_group_guard.2 ["1 2 0.5", "3 1 1.5"] 0 2 ?_
  intro j hj
  interval_cases j
  · exact ⟨"1 2 0.5", ⟨1, 2, mkRat 1 2⟩, by decide, by decide⟩
  · exact ⟨"3 1 1.5", ⟨3, 1, mkRat 3 2⟩, by decide, by decide⟩

-- A successful line access is in bounds.
theorem getL_ok_lt {lines : List String} {i : Nat} {l : String}
    (h : getL lines i = .ok l) : i < lines.length := by
  unfold getL at h
  cases hg : lines.get? i with
  | none => rw [hg] at h; simp at h
  | some x =>
    obtain ⟨hlt, -⟩ := List.get?_eq_some.mp hg
    exact hlt

-- Record group 1 always consumes exactly three lines.
theorem parseRec1_ok {lines : List String} {i : Nat} {r : Rec1} {j : Nat}
    (h : parseRec1 lines i = .ok (r, j)) : j = i + 3 := by
  unfold parseRec1 at h
  cases hg0 : getL lines i with
  | error e => rw [hg0] at h; simp at h
  | ok l0 =>
    rw [hg0] at h
    cases hg1 : getL lines (i + 1) with
    | error e => simp only [hg1] at h; simp at h
    | ok l1 =>
      simp only [hg1] at h
      cases hn : intAtD (pysplit (removeSQ l1)) 1 4 with
      | error e => simp only [hn] at h; simp at h
      | ok nod =>
        simp only [hn] at h
        cases hg2 : getL lines (i + 2) with
        | error e => simp only [hg2] at h; simp at h
        | ok l2 =>
          simp only [hg2] at h
          cases ha : intAtD (pysplit l2) 0 2 with
          | error e => simp only [ha] at h; simp at h
          | ok nxe =>
            simp only [ha] at h
            cases hb2 : intAtD (pysplit l2) 1 2 with
            | error e => simp only [hb2] at h; simp at h
            | ok nye =>
              simp only [hb2] at h
              cases hc : intAtD (pysplit l2) 2 4 with
              | error e => simp only [hc] at h; simp at h
              | ok nip =>
                simp only [hc] at h
                cases hd : intAtD (pysplit l2) 3 1 with
                | error e => simp only [hd] at h; simp at h
                | ok np =>
                  simp only [hd] at h
                  simp at h
                  omega

-- Record group 2 always consumes exactly one line.
theorem parseRec2_ok {lines : List String} {i : Nat} {a b : Rat} {j : Nat}
    (h : parseRec2 lines i = .ok (a, b, j)) : j = i + 1 := by
  unfold parseRec2 at h
  cases hg0 : getL lines i with
  | error e => rw [hg0] at h; simp at h
  | ok l0 =>
    rw [hg0] at h
    cases ha : ratAtD (pysplit l0) 0 1000000 with
    | error e => simp only [ha] at h; simp at h
    | ok e0 =>
      simp only [ha] at h
      cases hb2 : ratAtD (pysplit l0) 1 (mkRat 3 10) with
      | error e => simp only [hb2] at h; simp at h
      | ok nu =>
        simp only [hb2] at h
        simp at h
        omega

-- Record group 3 always consumes exactly two lines.
theorem parseRec3_ok {lines : List String} {i : Nat} {xs ys : List Rat}
    {j : Nat} (h : parseRec3 lines i = .ok (xs, ys, j)) : j = i + 2 := by
  unfold parseRec3 at h
  cases hg0 : getL lines i with
  | error e => rw [hg0] at h; simp at h
  | ok lx =>
    rw [hg0] at h
    cases ha : ratList (pysplit lx) with
    | error e => simp only [ha] at h; simp at h
    | ok xs2 =>
      simp only [ha] at h
      cases hg1 : getL lines (i + 1) with
      | error e => simp only [hg1] at h; simp at h
      | ok ly =>
        simp only [hg1] at h
        cases hb2 : ratList (pysplit ly) with
        | error e => simp only [hb2] at h; simp at h
        | ok ys2 =>
          simp only [hb2] at h
          simp at h
          omega

-- The record-4 row loop advances the index by exactly its count.
theorem bcLoop_idx : ∀ (k : Nat) (lines : List String) (idx : Nat)
    (rs : List BCRow) (j : Nat),
    bcLoop lines idx k = .ok (rs, j) → j = idx + k := by
  intro k
  induction k with
  | zero =>
    intro lines idx rs j h
    unfold bcLoop at h
    simp at h
    omega
  | succ k ih =>
    intro lines idx rs j h
    unfold bcLoop at h
    cases hg : getL lines (idx + 1) with
    | error e => rw [hg] at h; simp at h
    | ok l =>
      rw [hg] at h
      cases hp : parseBCLine l with
      | error e => simp only [hp] at h; simp at h
      | ok row =>
        cases hb : bcLoop lines (idx + 1) k with
        | error e => simp only [hp, hb] at h; simp at h
        | ok pr =>
          obtain ⟨rs2, j2⟩ := pr
          simp only [hp, hb] at h
          simp at h
          have := ih lines (idx + 1) rs2 j2 hb
          omega

-- The record-5 row loop advances the index by exactly its count.
theorem loadLoop_idx : ∀ (k : Nat) (lines : List String) (idx : Nat)
    (rs : List LoadRow) (j : Nat),
    loadLoop lines idx k = .ok (rs, j) → j = idx + k := by
  intro k
  induction k with
  | zero =>
    intro lines idx rs j h
    unfold loadLoop at h
    simp at h
    omega
  | succ k ih =>
    intro lines idx rs j h
    unfold loadLoop at h
    cases hg : getL lines (idx + 1) with
    | error e => rw [hg] at h; simp at h
    | ok l =>
      rw [hg] at h
      cases hp : parseLoadLine l with
      | error e => simp only [hp] at h; simp at h
      | ok row =>
        cases hb : loadLoop lines (idx + 1) k with
        | error e => simp only [hp, hb] at h; simp at h
        | ok pr =>
          obtain ⟨rs2, j2⟩ := pr
          simp only [hp, hb] at h
          simp at h
          have := ih lines (idx + 1) rs2 j2 hb
          omega

-- A successful record group 4 moves the index strictly forward.
theorem parseRec4_lb {lines : List String} {i : Nat} {n : Int}
    {rows : List BCRow} {j : Nat}
    (h : parseRec4 lines i = .ok (n, rows, j)) : i + 1 ≤ j := by
  unfold parseRec4 at h
  cases hg : getL lines i with
  | error e => rw [hg] at h; simp at h
  | ok l =>
    rw [hg] at h
    cases ht : tokAt (pysplit l) 0 with
    | error e => simp only [ht] at h; simp at h
    | ok t =>
      cases hn : pyIntE t with
      | error e => simp only [ht, hn] at h; simp at h
      | ok nr =>
        cases hb : bcLoop lines i nr.toNat with
        | error e => simp only [ht, hn, hb] at h; simp at h
        | ok pr =>
          obtain ⟨rs2, j2⟩ := pr
          simp only [ht, hn, hb] at h
          simp at h
          have := bcLoop_idx nr.toNat lines i rs2 j2 hb
          omega

-- A successful record group 5 moves the index strictly forward.
theorem parseRec5_lb {lines : List String} {i : Nat} {n : Int}
    {rows : List LoadRow} {j : Nat}
    (h : parseRec5 lines i = .ok (n, rows, j)) : i + 1 ≤ j := by
  unfold parseRec5 at h
  cases hg : getL lines i with
  | error e => rw [hg] at h; simp at h
  | ok l =>
    rw [hg] at h
    cases ht : tokAt (pysplit l) 0 with
    | error e => simp only [ht] at h; simp at h
    | ok t =>
      cases hn : pyIntE t with
      | error e => simp only [ht, hn] at h; simp at h
      | ok nr =>
        cases hb : loadLoop lines i nr.toNat with
        | error e => simp only [ht, hn, hb] at h; simp at h
        | ok pr =>
          obtain ⟨rs2, j2⟩ := pr
          simp only [ht, hn, hb] at h
          simp at h
          have := loadLoop_idx nr.toNat lines i rs2 j2 hb
          omega

-- A successful record group 6 read its line within bounds.
theorem parseRec6_ok {lines : List String} {i : Nat} {ff : Int} {j : Nat}
    (h : parseRec6 lines i = .ok (ff, j)) : i < lines.length := by
  unfold parseRec6 at h
  cases hg : getL lines i with
  | error e => rw [hg] at h; simp at h
  | ok l => exact getL_ok_lt hg

-- A dataset the p51 decoder accepts has at least nine content lines:
-- records 1–3 occupy the first six, record 4 and record 5 at least one
-- each, and record 6 reads one more line in bounds.
theorem core_ok_length {lines : List String} {d : P51Data}
    (h : parse_dat_file_p51_core lines = .ok d) : 9 ≤ lines.length := by
  unfold parse_dat_file_p51_core at h
  cases h1 : parseRec1 lines 0 with
  | error e => rw [h1] at h; simp at h
  | ok pr1 =>
    obtain ⟨r1, i1⟩ := pr1
    have hi1 : i1 = 3 := parseRec1_ok h1
    cases h2 : parseRec2 lines i1 with
    | error e => simp only [h1, h2] at h; simp at h
    | ok pr2 =>
      obtain ⟨e0, nu, i2⟩ := pr2
      have hi2 : i2 = i1 + 1 := parseRec2_ok h2
      cases h3 : parseRec3 lines i2 with
      | error e => simp only [h1, h2, h3] at h; simp at h
      | ok pr3 =>
        obtain ⟨xs, ys, i3⟩ := pr3
        have hi3 : i3 = i2 + 2 := parseRec3_ok h3
        cases h4 : parseRec4 lines i3 with
        | error e => simp only [h1, h2, h3, h4] at h; simp at h
        | ok pr4 =>
          obtain ⟨nr, bc, i4⟩ := pr4
          have hi4 : i3 + 1 ≤ i4 := parseRec4_lb h4
          cases h5 : parseRec5 lines i4 with
          | error e => simp only [h1, h2, h3, h4, h5] at h; simp at h
          | ok pr5 =>
            obtain ⟨ln, loads, i5⟩ := pr5
            have hi5 : i4 + 1 ≤ i5 := parseRec5_lb h5
            cases h6 : parseRec6 lines i5 with
            | error e => simp only [h1, h2, h3, h4, h5, h6] at h; simp at h
            | ok pr6 =>
              obtain ⟨ff, i6⟩ := pr6
              have hb : i5 < lines.length := parseRec6_ok h6
              omega

-- A record-4 row loop whose count reaches past the end of the line
-- supply always errors: either an access falls out of range
-- (`IndexError`) or a row fails to parse before that (`ValueError`).
theorem bcLoop_trunc : ∀ (k : Nat) (lines : List String) (idx : Nat),
    0 < k → lines.length < idx + 1 + k →
    ∃ e, bcLoop lines idx k = .error e := by
  intro k
  induction k with
  | zero => intro lines idx h0 _; exact absurd h0 (by omega)
  | succ k ih =>
    intro lines idx _ hlen
    cases hg : getL lines (idx + 1) with
    | error e => exact ⟨e, by simp only [bcLoop, hg]⟩
    | ok l =>
      have hb : idx + 1 < lines.length := getL_ok_lt hg
      cases hp : parseBCLine l with
      | error e => exact ⟨e, by simp only [bcLoop, hg, hp]⟩
      | ok row =>
        obtain ⟨e, he⟩ := ih lines (idx + 1) (by omega) (by omega)
        exact ⟨e, by simp only [bcLoop, hg, hp, he]⟩

-- Same for the record-5 row loop.
theorem loadLoop_trunc : ∀ (k : Nat) (lines : List String) (idx : Nat),
    0 < k → lines.length < idx + 1 + k →
    ∃ e, loadLoop lines idx k = .error e := by
  intro k
  induction k with
  | zero => intro lines idx h0 _; exact absurd h0 (by omega)
  | succ k ih =>
    intro lines idx _ hlen
    cases hg : getL lines (idx + 1) with
    | error e => exact ⟨e, by simp only [loadLoop, hg]⟩
    | ok l =>
      have hb : idx + 1 < lines.length := getL_ok_lt hg
      cases hp : parseLoadLine l with
      | error e => exact ⟨e, by simp only [loadLoop, hg, hp]⟩
      | ok row =>
        obtain ⟨e, he⟩ := ih lines (idx + 1) (by omega) (by omega)
        exact ⟨e, by simp only [loadLoop, hg, hp, he]⟩

-- The record-7 loop at or past the end of the line supply performs its
-- iterations without reading anything: every `if idx < len(lines)`
-- guard is false, so it returns the empty row list with the index
-- unchanged.
theorem pdLoop_eof : ∀ (k : Nat) (lines : List String) (idx : Nat),
    lines.length ≤ idx → pdLoop lines idx k = .ok ([], idx) := by
  intro k
  induction k with
  | zero => intro lines idx _; rfl
  | succ k ih =>
    intro lines idx hlen
    have hnone : lines.get? idx = none := List.get?_eq_none.mpr hlen
    simp only [pdLoop, hnone]
    exact ih lines idx hlen

/-- C3 — corrected (amended claim): where the truncation falls decides
the behaviour, and in no case is an `unresolved` list produced.  If the
content-line supply ends before the record-7 row loop — fewer than the
nine lines records 1–6 minimally need, or a record-4/record-5 row count
pointing past the end of the supply — the decoder raises (`IndexError`,
or `ValueError` on a malformed token) and no partial document is
returned; the per-case handler in `main` (source lines 413–422) catches
the exception, so the batch continues.  If the truncation falls inside
the final conditional group (record 7), the decoder does not raise: the
`if idx < len(lines)` guard skips iterations past the end of the
supply, and the document's prescribed-displacements table holds only
the rows present before the truncation — in the nine-line dataset with
`fixed_freedoms = 3` and no further lines, none at all. -/
theorem p51_truncation_dichotomy :
    (∀ raw : List String, raw.length < 9 →
      ∃ e, parse_dat_file_p51 raw = .error e)
    ∧ (∀ (lines : List String) (idx n : Nat) (l t : String),
        lines.get? idx = some l → (pysplit l).get? 0 = some t →
        pyInt? t = some (Int.ofNat n) → 0 < n →
        lines.length < idx + 1 + n →
        ∃ e, parseRec4 lines idx = .error e)
    ∧ (∀ (lines : List String) (idx n : Nat) (l t : String),
        lines.get? idx = some l → (pysplit l).get? 0 = some t →
        pyInt? t = some (Int.ofNat n) → 0 < n →
        lines.length < idx + 1 + n →
        ∃ e, parseRec5 lines idx = .error e)
    ∧ (∀ (lines : List String) (idx k : Nat), lines.length ≤ idx →
        parseRec7 lines idx (Int.ofNat k) = .ok ([], idx))
    ∧ parse_dat_file_p51
        ["plane", "quadrilateral 4 y", "2 2 4 1", "1.0 0.3",
         "0.0 1.0", "0.0 1.0", "0", "0", "3"] =
        .ok ⟨⟨"plane", "quadrilateral", 4, "y", 2, 2, 4, 1⟩, 1, mkRat 3 10,
          [0, 1], [0, 1], 0, [], 0, [], 3, []⟩ := by
  refine ⟨?_, ?_, ?_, ?_, by decide⟩
  · intro raw hlen
    cases hp : parse_dat_file_p51 raw with
    | error e => exact ⟨e, rfl⟩
    | ok d =>
      exfalso
      have h9 : 9 ≤ (raw.map stripLine).length :=
        core_ok_length (by simpa [parse_dat_file_p51] using hp)
      rw [List.length_map] at h9
      omega
  · intro lines idx n l t hl htok hint hn hlen
    obtain ⟨e, he⟩ := bcLoop_trunc n lines idx hn hlen
    have hg : getL lines idx = .ok l := getL_of_get? hl
    have ht : tokAt (pysplit l) 0 = .ok t := tokAt_of_get? htok
    have hi : pyIntE t = .ok (Int.ofNat n) := pyIntE_of_some hint
    have htn : (Int.ofNat n).toNat = n := rfl
    exact ⟨e, by simp only [parseRec4, hg, ht, hi, htn, he]⟩
  · intro lines idx n l t hl htok hint hn hlen
    obtain ⟨e, he⟩ := loadLoop_trunc n lines idx hn hlen
    have hg : getL lines idx = .ok l := getL_of_get? hl
    have ht : tokAt (pysplit l) 0 = .ok t := tokAt_of_get? htok
    have hi : pyIntE t = .ok (Int.ofNat n) := pyIntE_of_some hint
    have htn : (Int.ofNat n).toNat = n := rfl
    exact ⟨e, by simp only [parseRec5, hg, ht, hi, htn, he]⟩
  · intro lines idx k hlen
    exact pdLoop_eof k lines idx hlen

/-- Witness for `p51_truncation_dichotomy`: the empty dataset errors; a
record-4 count of 5 with only one row line errors; a record-5 count of
5 with only one row line errors; the record-7 loop with the index past
the end returns the empty table unchanged. -/
theorem p51_truncation_dichotomy_witness :
    (∃ e, parse_dat_file_p51 [] = .error e) ∧
    (∃ e, parseRec4 ["5", "1 0 1"] 0 = .error e) ∧
    (∃ e, parseRec5 ["5", "1 0.5 1.5"] 0 = .error e) ∧
    parseRec7 ["1 2 0.5"] 5 2 = .ok ([], 5) :=
  ⟨p51_truncation_dichotomy.1 [] (by decide),
    p51_truncation_dichotomy.2.1 ["5", "1 0 1"] 0 5 "5" "5" (by decide)
      (by decide) (by decide) (by decide) (by decide),
    p51_truncation_dichotomy.2.2.1 ["5", "1 0.5 1.5"] 0 5 "5" "5" (by decide)
      (by decide) (by decide) (by decide) (by decide),
    p51_truncation_dichotomy.2.2.2.1 ["1 2 0.5"] 5 2 (by decide)⟩

/-- C3 — counterexample to the claim as stated: on the one-line
truncated dataset `'plane'` the decoder does not return a
`DatasetDocument` with the decoded fields and an `unresolved` list — it
raises `IndexError` (no partial result exists; `parse_dat_file_p51`
has no `unresolved` mechanism at all). -/
theorem p51_truncation_raises :
    parse_dat_file_p51 ["\x27plane\x27"] = .error .indexError := by decide

/-- C5 — corrected (amended claim): a token that fails numeric coercion
does not mark a single field unresolved — it raises `ValueError`, which
aborts the entire record and the whole parse of that dataset (the
per-case handler in `main` then skips the case): with any non-integer
first token on the record-4 count line after a well-formed six-line
prefix, the whole decode returns `ValueError` and no later field is
decoded. -/
theorem coercion_failure_aborts_run : ∀ (t : String) (rest : List String)
    (u : String), (pysplit t).get? 0 = some u → pyInt? u = none →
    parse_dat_file_p51_core
      (["plane", "quadrilateral 4 y", "2 2 4 1", "1.0e6 0.3",
        "0.0 1.0", "0.0 1.0"] ++ t :: rest) = .error .valueError := by
  intro t rest u hu hnone
  have h1 : parseRec1 (["plane", "quadrilateral 4 y", "2 2 4 1",
      "1.0e6 0.3", "0.0 1.0", "0.0 1.0"] ++ t :: rest) 0 =
      .ok (⟨"plane", "quadrilateral", 4, "y", 2, 2, 4, 1⟩, 3) := rfl
  have h2 : parseRec2 (["plane", "quadrilateral 4 y", "2 2 4 1",
      "1.0e6 0.3", "0.0 1.0", "0.0 1.0"] ++ t :: rest) 3 =
      .ok (1000000, mkRat 3 10, 4) := rfl
  have h3 : parseRec3 (["plane", "quadrilateral 4 y", "2 2 4 1",
      "1.0e6 0.3", "0.0 1.0", "0.0 1.0"] ++ t :: rest) 4 =
      .ok ([0, 1], [0, 1], 6) := rfl
  have hg : getL (["plane", "quadrilateral 4 y", "2 2 4 1",
      "1.0e6 0.3", "0.0 1.0", "0.0 1.0"] ++ t :: rest) 6 = .ok t := rfl
  have ht : tokAt (pysplit t) 0 = .ok u := tokAt_of_get? hu
  have hi : pyIntE u = .error .valueError := by
    unfold pyIntE
    rw [hnone]
  have h4 : parseRec4 (["plane", "quadrilateral 4 y", "2 2 4 1",
      "1.0e6 0.3", "0.0 1.0", "0.0 1.0"] ++ t :: rest) 6 =
      .error .valueError := by
    unfold parseRec4
    rw [hg]
    simp only [ht, hi]
  unfold parse_dat_file_p51_core
  rw [h1]
  simp only [h2, h3, h4]

/-- Witness for `coercion_failure_aborts_run`: the token `abc`. -/
theorem coercion_failure_aborts_run_witness :
    parse_dat_file_p51_core
      (["plane", "quadrilateral 4 y", "2 2 4 1", "1.0e6 0.3",
        "0.0 1.0", "0.0 1.0"] ++ "abc" :: []) = .error .valueError :=
  coercion_failure_aborts_run "abc" [] "abc" (by decide) (by decide)

/-- C5 — counterexample to the claim as stated: on a dataset whose
record-4 count token is `abc`, the run does not continue with the field
marked unresolved — the whole parse is aborted with `ValueError`, and
none of the subsequent records is decoded. -/
theorem coercion_failure_no_isolation :
    parse_dat_file_p51 ["\x27plane\x27", "\x27quadrilateral\x27 4 y", "2 2 4 1",
      "1.0e6 0.3", "0.0 1.0", "0.0 1.0", "abc", "0", "0"] =
      .error .valueError := by decide

/-- C9 — corrected (amended claim): given the same run date, the
projector is a pure function (re-running on the same DatasetDocument
yields the identical document), its `authors.entry.created_on` entry is
exactly the run date, and the top-level key order is the fixed insertion
order of the source's dict literal — the schema/record order, which is
not alphabetical.  Byte-identical output across runs therefore holds
only for runs on the same day. -/
theorem projector_key_order_and_date :
    (∀ (case chapter program : String) (md : SrcMeta) (title : String)
      (rs : List ReadStmt) (dls : List String) (today : String) (y : YVal),
      generate_yaml_from_source case chapter program md title rs dls today =
        .ok y →
      topKeys y = projKeyOrder ∧ createdOnOf (.ok y) = some today)
    ∧ ¬ projKeyOrder.Pairwise (fun a b => strLexLe a b = true) := by
  constructor
  · intro case chapter program md title rs dls today y h
    unfold generate_yaml_from_source at h
    cases hp1 : program.toList.get? 1 with
    | none => rw [hp1] at h; simp at h
    | some p1 =>
      rw [hp1] at h
      cases hc : pyIntE (String.mk (stripChapAll chapter.toList)) with
      | error e => simp only [hc] at h; simp at h
      | ok chn =>
        simp only [hc] at h
        cases h
        exact ⟨rfl, rfl⟩
  · decide

/-- Witness for `projector_key_order_and_date`: a concrete projection
succeeds and its key order and `created_on` entry are as stated. -/
theorem projector_key_order_and_date_witness :
    ∃ y, generate_yaml_from_source "p51_1" "chap05" "p51"
        ⟨2, "linear elasticity", 2⟩ "Plane strain" [] [] "2026-01-09" =
        .ok y ∧
      topKeys y = projKeyOrder ∧ createdOnOf (.ok y) = some "2026-01-09" := by
  refine ⟨_, rfl, ?_⟩
  exact projector_key_order_and_date.1 "p51_1" "chap05" "p51"
    ⟨2, "linear elasticity", 2⟩ "Plane strain" [] [] "2026-01-09" _ rfl

/-- C9 — counterexample to the claim as stated: two runs of the
projector on the identical DatasetDocument input, one dated 2026-01-09
and one dated 2026-01-10, produce different documents (their
`authors.entry.created_on` entries differ), so the output is not
byte-identical across runs on the same input. -/
theorem projector_not_run_deterministic :
    generate_yaml_from_source "p51_1" "chap05" "p51"
      ⟨2, "linear elasticity", 2⟩ "Plane strain" [] [] "2026-01-09" ≠
    generate_yaml_from_source "p51_1" "chap05" "p51"
      ⟨2, "linear elasticity", 2⟩ "Plane strain" [] [] "2026-01-10" := by
  intro h
  have hobs := congrArg createdOnOf h
  have h1 : createdOnOf (generate_yaml_from_source "p51_1" "chap05" "p51"
      ⟨2, "linear elasticity", 2⟩ "Plane strain" [] [] "2026-01-09") =
      some "2026-01-09" := rfl
  have h2 : createdOnOf (generate_yaml_from_source "p51_1" "chap05" "p51"
      ⟨2, "linear elasticity", 2⟩ "Plane strain" [] [] "2026-01-10") =
      some "2026-01-10" := rfl
  rw [h1, h2] at hobs
  simp at hobs
